import Mathlib

/-!
# golang-hybrid-api: calculator service, dual-mode SDK and launcher

A shallow embedding of

* `src/calculator-svc/methods.go`    (`calculate`),
* `src/calculator-svc/entrypoint.go` (`calculateHandler`),
* `src/calculator-svc/sdk.go`        (`NewCalculatorSdk`, `newHttpSdk`),
* `main.go`                          (`main`),

together with the properties of the specification that can be settled on it.

Conventions of the embedding.

* Go's `float64` is not fixed to one carrier: every definition is generic in a
  type `F` carrying the operations the source uses (`+ - * /`, the literal `0`,
  the comparison `==`, and the two facts `encoding/json` needs: whether a value
  is finite and how a non-finite one is printed).  IEEE doubles are one model;
  the examples are evaluated in the exact model `ℚ`, on inputs where double
  arithmetic is exact, and, where a NaN is needed, in `ExtRat`, the rationals
  extended by the infinities and a NaN.
* A Go result `(float64, error)` is the pair of the number and an optional
  error; an `error` built by `fmt.Errorf` is its message.
* HTTP bodies are JSON documents at the level of values, not bytes.
* The environment and the network are an explicit `World`.
-/

namespace CalculatorSvc

/-! ## Numbers -/

/-- The operations of Go's `float64` used by the sources.  `eq` is the
language's `==` (so, for IEEE doubles, `eq (-0) 0 = true` and `eq NaN x = false`),
`isFinite x` says that `x` is neither a NaN nor an infinity, and `formatG` is
`strconv.FormatFloat(x, 'g', -1, 64)`. -/
class Float64Ops (F : Type) extends Add F, Sub F, Mul F, Div F, Zero F where
  eq : F → F → Bool
  isFinite : F → Bool
  formatG : F → String

/-- The exact model: rational numbers, all finite, `==` is equality. -/
instance ratFloat64Ops : Float64Ops ℚ where
  eq := fun x y => decide (x = y)
  isFinite := fun _ => true
  formatG := fun _ => ""

/-- The rationals extended by the two infinities and a NaN, with the arithmetic
of IEEE 754 on them (without rounding and without a negative zero). -/
inductive ExtRat where
  | fin (q : ℚ)
  | inf (negative : Bool)
  | nan
  deriving DecidableEq

/-- Negation in `ExtRat`. -/
def ExtRat.neg : ExtRat → ExtRat
  | .fin q => .fin (-q)
  | .inf s => .inf (!s)
  | .nan => .nan

/-- Addition in `ExtRat`: opposite infinities add up to NaN. -/
def ExtRat.add : ExtRat → ExtRat → ExtRat
  | .fin a, .fin b => .fin (a + b)
  | .fin _, .inf s => .inf s
  | .inf s, .fin _ => .inf s
  | .inf s, .inf t => if s = t then .inf s else .nan
  | _, _ => .nan

/-- Multiplication in `ExtRat`: zero times an infinity is NaN. -/
def ExtRat.mul : ExtRat → ExtRat → ExtRat
  | .fin a, .fin b => .fin (a * b)
  | .fin a, .inf s => if a = 0 then .nan else .inf (xor s (decide (a < 0)))
  | .inf s, .fin a => if a = 0 then .nan else .inf (xor s (decide (a < 0)))
  | .inf s, .inf t => .inf (xor s t)
  | _, _ => .nan

/-- Division in `ExtRat`: a non-zero number over zero is an infinity, zero over
zero and an infinity over an infinity are NaN. -/
def ExtRat.div : ExtRat → ExtRat → ExtRat
  | .fin a, .fin b =>
    if b = 0 then (if a = 0 then .nan else .inf (decide (a < 0))) else .fin (a / b)
  | .fin _, .inf _ => .fin 0
  | .inf s, .fin b => .inf (xor s (decide (b < 0)))
  | _, _ => .nan

/-- The comparison `==` in `ExtRat`: a NaN equals nothing. -/
def ExtRat.eq : ExtRat → ExtRat → Bool
  | .fin a, .fin b => decide (a = b)
  | .inf s, .inf t => s == t
  | _, _ => false

/-- The model with non-finite values.  `formatG` is given on the non-finite
values, the only ones the sources print. -/
instance extRatFloat64Ops : Float64Ops ExtRat where
  add := ExtRat.add
  sub := fun a b => ExtRat.add a (ExtRat.neg b)
  mul := ExtRat.mul
  div := ExtRat.div
  zero := .fin 0
  eq := ExtRat.eq
  isFinite := fun x => match x with
    | .fin _ => true
    | _ => false
  formatG := fun x => match x with
    | .nan => "NaN"
    | .inf false => "+Inf"
    | .inf true => "-Inf"
    | .fin _ => ""

/-! ## `calculate` (methods.go) -/

/-- Modelled from the spec: the declaration of `CalculationRequest` is not among
the sources; the spec gives its shape as `{Operation, A, B}` with the wire names
`operation`, `a`, `b`. -/
structure CalculationRequest (F : Type) where
  Operation : String
  A : F
  B : F

/-- A Go `error` made by `fmt.Errorf`: its message. -/
abbrev GoError := String

/-- A Go result `(float64, error)`; `none` is `nil`. -/
abbrev Result (F : Type) := F × Option GoError

/-- Translation of `calculate`. -/
def calculate {F : Type} [Float64Ops F] (req : CalculationRequest F) : Result F :=
  if req.Operation = "add" then (req.A + req.B, none)
  else if req.Operation = "subtract" then (req.A - req.B, none)
  else if req.Operation = "multiply" then (req.A * req.B, none)
  else if req.Operation = "divide" then
    if Float64Ops.eq req.B 0 = true then (0, some "division by zero is not allowed")
    else (req.A / req.B, none)
  else (0, some "invalid operation specified")

/-! ## JSON documents and HTTP messages -/

/-- A JSON value as far as the decoders of this program can tell values apart:
`other kind` is a value of kind `"bool"`, `"array"` or `"object"`. -/
inductive JsonValue (F : Type) where
  | null
  | num (x : F)
  | str (s : String)
  | other (kind : String)

/-- The members of a JSON object, in document order. -/
abbrev JsonObject (F : Type) := List (String × JsonValue F)

/-- An HTTP body: a JSON object, or a byte sequence that is not a JSON document
(`cause` is the error `encoding/json` reports on it: a syntax error, or `EOF`
for an empty body). -/
inductive Body (F : Type) where
  | malformed (cause : String)
  | object (fields : JsonObject F)

/-- The part of `http.Response` the client reads. -/
structure Response (F : Type) where
  StatusCode : Nat
  Body : Body F

/-- Whether the object key `key` selects the struct field with JSON name `name`:
`encoding/json` takes an exact match, else a case-insensitive one.  The names
used here (`operation`, `a`, `b`, `data`) are lower-case ASCII without `k` or
`s`, for which case folding is ASCII case folding. -/
def keyMatches (name key : String) : Bool :=
  key.data.map Char.toLower == name.data

/-- Decoding the members of an object into a `float64` field named `name` that
currently holds `cur`: a number is stored, `null` leaves the field alone, any
other value is an `UnmarshalTypeError`; unknown keys are ignored and, of
repeated keys, the last one wins. -/
def decodeFloat64 {F : Type} (name : String) : JsonObject F → F → Except String F
  | [], cur => .ok cur
  | (key, v) :: rest, cur =>
    if keyMatches name key then
      match v with
      | .num x => decodeFloat64 name rest x
      | .null => decodeFloat64 name rest cur
      | .str _ => .error ("json: cannot unmarshal string into Go struct field ." ++ name
          ++ " of type float64")
      | .other kind => .error ("json: cannot unmarshal " ++ kind ++ " into Go struct field ."
          ++ name ++ " of type float64")
    else decodeFloat64 name rest cur

/-- Decoding the members of an object into a `string` field named `name`. -/
def decodeString {F : Type} (name : String) : JsonObject F → String → Except String String
  | [], cur => .ok cur
  | (key, v) :: rest, cur =>
    if keyMatches name key then
      match v with
      | .str s => decodeString name rest s
      | .null => decodeString name rest cur
      | .num _ => .error ("json: cannot unmarshal number into Go struct field ." ++ name
          ++ " of type string")
      | .other kind => .error ("json: cannot unmarshal " ++ kind ++ " into Go struct field ."
          ++ name ++ " of type string")
    else decodeString name rest cur

/-- `json.Marshal(req)`: the object `{"operation": …, "a": …, "b": …}`; a NaN or
an infinity is an `UnsupportedValueError`. -/
def marshalRequest {F : Type} [Float64Ops F] (req : CalculationRequest F) :
    Except String (Body F) :=
  if Float64Ops.isFinite req.A = false then
    .error ("json: unsupported value: " ++ Float64Ops.formatG req.A)
  else if Float64Ops.isFinite req.B = false then
    .error ("json: unsupported value: " ++ Float64Ops.formatG req.B)
  else
    .ok (.object [("operation", .str req.Operation), ("a", .num req.A), ("b", .num req.B)])

/-- `c.ShouldBindJSON(&req)`: the body decoded into a zero `CalculationRequest`. -/
def bindRequest {F : Type} [Float64Ops F] : Body F → Except String (CalculationRequest F)
  | .malformed cause => .error cause
  | .object fields =>
    match decodeString "operation" fields "" with
    | .error e => .error e
    | .ok op =>
      match decodeFloat64 "a" fields 0 with
      | .error e => .error e
      | .ok a =>
        match decodeFloat64 "b" fields 0 with
        | .error e => .error e
        | .ok b => .ok { Operation := op, A := a, B := b }

/-! ## `calculateHandler` (entrypoint.go) -/

/-- Translation of `calculateHandler`: the response written for a request body.
`c.JSON(code, gin.H{k: v})` is the response with status `code` and body
`{k: v}`; a result that is a NaN or an infinity cannot be encoded, and the
response then has status `code` and an empty body. -/
def calculateHandler {F : Type} [Float64Ops F] (body : Body F) : Response F :=
  match bindRequest body with
  | .error _ => { StatusCode := 400, Body := .object [("error", .str "Invalid request body")] }
  | .ok req =>
    match calculate req with
    | (_, some err) => { StatusCode := 400, Body := .object [("error", .str err)] }
    | (result, none) =>
      if Float64Ops.isFinite result = true then
        { StatusCode := 200, Body := .object [("result", .num result)] }
      else
        { StatusCode := 200, Body := .malformed "EOF" }

/-! ## The SDK (sdk.go) -/

/-- One `http.Post(url, contentType, body)` issued by a client. -/
structure PostCall (F : Type) where
  url : String
  contentType : String
  body : Body F

/-- What a client call can observe of its surroundings: the process environment
and the answer of the network to a POST (an error when the endpoint cannot be
reached). -/
structure World (F : Type) where
  getenv : String → String
  post : PostCall F → Except GoError (Response F)

/-- Translation of `CalculatorSdk`.  `Calculate` runs in a `World` and yields
its Go result together with the POSTs it issued, in order. -/
structure CalculatorSdk (F : Type) where
  Calculate : World F → CalculationRequest F → Result F × List (PostCall F)

/-- The client-side decoding of a `200` response:
`json.NewDecoder(resp.Body).Decode(&result)` with
`result struct { Data float64 "json:\"data\"" }`, initially zero. -/
def decodeResult {F : Type} [Float64Ops F] : Body F → Except String F
  | .malformed cause => .error cause
  | .object fields => decodeFloat64 "data" fields 0

/-- Translation of `newHttpSdk`. -/
def newHttpSdk {F : Type} [Float64Ops F] : CalculatorSdk F where
  Calculate := fun w req =>
    let url := w.getenv "CALCULADOR_SERVICE_URL"
    if url = "" then
      ((0, some "CALCULADOR_SERVICE_URL environment variable not set"), [])
    else
      match marshalRequest req with
      | .error e => ((0, some ("failed to marshal request: " ++ e)), [])
      | .ok body =>
        let call : PostCall F :=
          { url := url ++ "/calculator", contentType := "application/json", body := body }
        match w.post call with
        | .error e => ((0, some ("failed to call calculator service: " ++ e)), [call])
        | .ok resp =>
          if resp.StatusCode ≠ 200 then
            ((0, some ("calculator service returned non-200 status: "
              ++ toString resp.StatusCode)), [call])
          else
            match decodeResult resp.Body with
            | .error e => ((0, some ("failed to decode response: " ++ e)), [call])
            | .ok data => ((data, none), [call])

/-- The local variant: `&CalculatorSdk{Calculate: calculate}`. -/
def localSdk {F : Type} [Float64Ops F] : CalculatorSdk F where
  Calculate := fun _ req => (calculate req, [])

/-- Translation of `NewCalculatorSdk`. -/
def NewCalculatorSdk {F : Type} [Float64Ops F] (mode : String) : CalculatorSdk F :=
  if mode = "http" then newHttpSdk else localSdk

/-- A world whose base URL is `base` and whose network answers every POST with
the response of `calculateHandler` to the posted body. -/
def handlerWorld {F : Type} [Float64Ops F] (base : String) : World F where
  getenv := fun name => if name = "CALCULADOR_SERVICE_URL" then base else ""
  post := fun call => .ok (calculateHandler call.body)

/-- A world whose base URL is `base` and whose network answers every POST with
the response `resp`. -/
def fixedResponseWorld {F : Type} (base : String) (resp : Response F) : World F where
  getenv := fun name => if name = "CALCULADOR_SERVICE_URL" then base else ""
  post := fun _ => .ok resp

end CalculatorSvc

namespace Launcher

/-! ## The launcher (main.go) -/

/-- Go's `unicode.IsSpace`: the Latin-1 spaces, then the `White_Space` table. -/
def isSpace (c : Char) : Bool :=
  let r := c.toNat
  if r ≤ 0xFF then
    r == 0x09 || r == 0x0A || r == 0x0B || r == 0x0C || r == 0x0D || r == 0x20
      || r == 0x85 || r == 0xA0
  else
    r == 0x1680 || (0x2000 ≤ r && r ≤ 0x200A) || r == 0x2028 || r == 0x2029
      || r == 0x202F || r == 0x205F || r == 0x3000

/-- Go's `strings.TrimSpace`: leading and trailing white space removed. -/
def trimSpace (s : String) : String :=
  String.mk (((s.data.dropWhile isSpace).reverse.dropWhile isSpace).reverse)

/-- Splitting a list of characters at every comma; the result is never empty. -/
def splitComma : List Char → List (List Char)
  | [] => [[]]
  | c :: cs =>
    if c = ',' then [] :: splitComma cs
    else
      match splitComma cs with
      | [] => [[c]]
      | piece :: pieces => (c :: piece) :: pieces

/-- Go's `strings.Split(s, ",")`. -/
def split (s : String) : List String :=
  (splitComma s.data).map String.mk

/-- The lines the program writes to standard output. -/
inductive Event where
  | dotenvWarning
  | targetServicesNotSet
  | noEntrypoint (name : String)
  | starting (name : String)
  | finished (name : String)
  | allFinished
  deriving DecidableEq, Repr

/-- The text of a line. -/
def Event.render : Event → String
  | .dotenvWarning => "Warning: .env file not found or failed to load"
  | .targetServicesNotSet => "TARGET_SERVICES environment variable not set"
  | .noEntrypoint name => "No entrypoint found for service: " ++ name
  | .starting name => "Starting service: " ++ name
  | .finished name => "Service finished: " ++ name
  | .allFinished => "All services have finished."

/-- The start procedures `main` registers. -/
inductive Entrypoint where
  | authsvc
  | calculatorsvc
  | gatewaysvc
  | pdfsvc
  deriving DecidableEq, Repr

/-- A registry: the entries of a Go map literal, looked up by key. -/
abbrev Registry (E : Type) := List (String × E)

/-- The map `entrypoints` of `main`. -/
def entrypoints : Registry Entrypoint :=
  [("auth-svc", .authsvc), ("calculator-svc", .calculatorsvc),
   ("gateway-svc", .gatewaysvc), ("pdf-svc", .pdfsvc)]

/-- Where a goroutine started by `main` stands in
`defer wg.Done(); Printf("Starting…"); ep(); Printf("Service finished…")`.

* `created`: started, `wg.Done` deferred, nothing written yet;
* `inEntrypoint`: "Starting service" written, inside `ep()`;
* `afterEntrypoint`: `ep()` has returned;
* `deferred`: "Service finished" written, the deferred `wg.Done()` pending;
* `done`: the function has returned and `wg.Done()` has run;
* `panicking`: `ep()` panicked; the deferred `wg.Done()` is pending;
* `crashing`: `wg.Done()` has run during the panic; the runtime is about to end
  the process;
* `exiting`: `ep()` called `runtime.Goexit`; the deferred `wg.Done()` is pending;
* `exited`: `wg.Done()` has run and the goroutine has ended, without returning. -/
inductive Phase where
  | created
  | inEntrypoint
  | afterEntrypoint
  | deferred
  | done
  | panicking
  | crashing
  | exiting
  | exited
  deriving DecidableEq, Repr

/-- A goroutine started by `main`: the closure arguments `ep`, `name` and its
progress. -/
structure Goroutine (E : Type) where
  ep : E
  name : String
  phase : Phase

/-- Where the main goroutine stands. -/
inductive MainPc where
  | start
  | loop (rest : List String)
  | joined
  | returned
  | exited (code : Nat)
  deriving DecidableEq, Repr

/-- The state of the process: the main goroutine, the counter of the
`sync.WaitGroup`, the goroutines started so far (in the order of their `go`
statements), standard output, and whether the process has terminated. -/
structure State (E : Type) where
  pc : MainPc
  wg : Int
  units : List (Goroutine E)
  log : List Event
  halted : Bool

/-- What the process is started with: the value of `TARGET_SERVICES` after
`godotenv.Load()`, and whether that load failed. -/
structure Config where
  targetServices : String
  dotenvFailed : Bool

/-- The state before `main` runs. -/
def State.init (E : Type) : State E :=
  { pc := .start, wg := 0, units := [], log := [], halted := false }

/-- One iteration of the `for … range services` loop of `main`. -/
def loopBody {E : Type} (registry : Registry E) (s : State E) (serviceName : String) :
    State E :=
  let trimmedServiceName := trimSpace serviceName
  if trimmedServiceName = "" then s
  else
    match registry.lookup trimmedServiceName with
    | none => { s with log := s.log ++ [.noEntrypoint trimmedServiceName] }
    | some entrypoint =>
      { s with
        wg := s.wg + 1
        units := s.units ++ [{ ep := entrypoint, name := trimmedServiceName, phase := .created }] }

/-- The next action of the main goroutine, when it has one: the prologue (lines
19-36), one loop iteration, `wg.Wait()` (enabled only when the counter is zero),
and the final `Println` followed by the return of `main`, which ends the
process. -/
def mainStep {E : Type} (registry : Registry E) (cfg : Config) (s : State E) :
    Option (State E) :=
  match s.pc with
  | .start =>
    let log := if cfg.dotenvFailed then s.log ++ [.dotenvWarning] else s.log
    if cfg.targetServices = "" then
      some { s with pc := .exited 1, log := log ++ [.targetServicesNotSet], halted := true }
    else
      some { s with pc := .loop (split cfg.targetServices), log := log }
  | .loop (serviceName :: rest) =>
    some { loopBody registry s serviceName with pc := .loop rest }
  | .loop [] =>
    if s.wg = 0 then some { s with pc := .joined } else none
  | .joined =>
    some { s with pc := .returned, log := s.log ++ [.allFinished], halted := true }
  | .returned => none
  | .exited _ => none

/-- How a call `ep()` of a start procedure can end: it returns, it panics, it
ends its goroutine with `runtime.Goexit`, or it ends the process (`os.Exit`,
`log.Fatalf`).  Running forever is the absence of all four. -/
inductive EntrypointOutcome where
  | returns
  | panics
  | goexits
  | terminatesProcess
  deriving DecidableEq, Repr

/-- Which ends a start procedure can come to. -/
abbrev Behaviour (E : Type) := E → EntrypointOutcome → Bool

/-- Modelled from the spec: the sources of `authsvc`, `gatewaysvc` and `pdfsvc`
are missing; the spec lets a start procedure run forever, terminate or panic,
and nothing more is assumed of them.  `calculatorsvc.Entrypoint`
(entrypoint.go) serves until `r.Run` fails and then calls `log.Fatalf`: it
never returns. -/
def entrypointBehaviour : Behaviour Entrypoint
  | .calculatorsvc, .terminatesProcess => true
  | .calculatorsvc, _ => false
  | _, _ => true

/-- The next action of the goroutine `g` on the shared state, its start
procedure ending as `o` says when it is the call `ep()` that ends: the new phase
of `g` and the new shared state.  Deferred calls run when the function returns,
when it panics and on `runtime.Goexit`; they do not run when the process is
ended from inside `ep()`.  A panic that nothing recovers ends the process once
the deferred calls have run. -/
def goroutineAction {E : Type} (behaviour : Behaviour E) (s : State E) (g : Goroutine E)
    (o : EntrypointOutcome) : Option (Phase × State E) :=
  match g.phase with
  | .created => some (.inEntrypoint, { s with log := s.log ++ [.starting g.name] })
  | .inEntrypoint =>
    if behaviour g.ep o then
      match o with
      | .returns => some (.afterEntrypoint, s)
      | .panics => some (.panicking, s)
      | .goexits => some (.exiting, s)
      | .terminatesProcess => some (.inEntrypoint, { s with halted := true })
    else none
  | .afterEntrypoint => some (.deferred, { s with log := s.log ++ [.finished g.name] })
  | .deferred => some (.done, { s with wg := s.wg - 1 })
  | .done => none
  | .panicking => some (.crashing, { s with wg := s.wg - 1 })
  | .crashing => some (.crashing, { s with halted := true })
  | .exiting => some (.exited, { s with wg := s.wg - 1 })
  | .exited => none

/-- The next action of the `i`-th goroutine. -/
def goroutineStep {E : Type} (behaviour : Behaviour E) (s : State E) (i : Nat)
    (o : EntrypointOutcome) : Option (State E) :=
  match s.units[i]? with
  | none => none
  | some g =>
    match goroutineAction behaviour s g o with
    | none => none
    | some (phase, s1) => some { s1 with units := s1.units.set i { g with phase := phase } }

/-- One step of the process: an action of the main goroutine or of one of the
goroutines it started, in any order, as long as the process has not ended. -/
def Step {E : Type} (registry : Registry E) (behaviour : Behaviour E) (cfg : Config)
    (s s1 : State E) : Prop :=
  s.halted = false ∧
    (mainStep registry cfg s = some s1 ∨ ∃ i o, goroutineStep behaviour s i o = some s1)

/-- The states of the executions of the process, under every interleaving. -/
inductive Reachable {E : Type} (registry : Registry E) (behaviour : Behaviour E)
    (cfg : Config) : State E → Prop where
  | init : Reachable registry behaviour cfg (State.init E)
  | step {s s1 : State E} : Reachable registry behaviour cfg s →
      Step registry behaviour cfg s s1 → Reachable registry behaviour cfg s1

/-- The main goroutine run alone for at most `fuel` actions. -/
def runMain {E : Type} (registry : Registry E) (cfg : Config) : Nat → State E → State E
  | 0, s => s
  | fuel + 1, s =>
    if s.halted then s
    else
      match mainStep registry cfg s with
      | none => s
      | some s1 => runMain registry cfg fuel s1

/-- The loop of `main` run without interruption over the entries of a
configuration string, from the state the prologue leaves. -/
def launchLoop {E : Type} (registry : Registry E) (targetServices : String) : State E :=
  (split targetServices).foldl (loopBody registry) (State.init E)

/-- The names of the goroutines started, in order. -/
def scheduledNames {E : Type} (s : State E) : List String :=
  s.units.map (fun g => g.name)

/-- The names reported by a "No entrypoint found" line, in order. -/
def diagnosedNames {E : Type} (s : State E) : List String :=
  s.log.filterMap (fun e => match e with | .noEntrypoint name => some name | _ => none)

/-- The names the specification says are scheduled: the trimmed entries that are
non-empty and present in the registry, in list order, once per occurrence. -/
def expectedScheduled {E : Type} (registry : Registry E) (targetServices : String) :
    List String :=
  ((split targetServices).map trimSpace).filter
    (fun n => decide (n ≠ "") && (registry.lookup n).isSome)

/-- The names the specification says are reported as unmatched: the trimmed
entries that are non-empty and absent from the registry, in list order. -/
def expectedDiagnosed {E : Type} (registry : Registry E) (targetServices : String) :
    List String :=
  ((split targetServices).map trimSpace).filter
    (fun n => decide (n ≠ "") && (registry.lookup n).isNone)

/-- One scheduling decision: the main goroutine acts, or the `i`-th goroutine
does, its start procedure behaving as given. -/
inductive Action where
  | main
  | unit (i : Nat) (o : EntrypointOutcome)
  deriving DecidableEq, Repr

/-- The process run under an explicit schedule; `none` when the schedule asks
for an action that is not enabled. -/
def runSchedule {E : Type} (registry : Registry E) (behaviour : Behaviour E) (cfg : Config) :
    List Action → State E → Option (State E)
  | [], s => some s
  | a :: rest, s =>
    if s.halted then none
    else
      match a with
      | .main =>
        match mainStep registry cfg s with
        | none => none
        | some s1 => runSchedule registry behaviour cfg rest s1
      | .unit i o =>
        match goroutineStep behaviour s i o with
        | none => none
        | some s1 => runSchedule registry behaviour cfg rest s1

/-- A configuration that schedules one unit whose source is not available. -/
def sampleConfig : Config :=
  { targetServices := "pdf-svc, , bogus-svc", dotenvFailed := false }

/-- A schedule for `sampleConfig` in which the goroutine of `pdf-svc` starts
while the loop is still running and its start procedure returns. -/
def sampleSchedule : List Action :=
  [.main, .main, .unit 0 .returns, .main, .main, .unit 0 .returns, .unit 0 .returns,
   .unit 0 .returns, .main, .main]

/-- The state `sampleSchedule` ends in. -/
def sampleFinal : State Entrypoint :=
  { pc := .returned
    wg := 0
    units := [{ ep := .pdfsvc, name := "pdf-svc", phase := .done }]
    log := [.starting "pdf-svc", .noEntrypoint "bogus-svc",
      .finished "pdf-svc", .allFinished]
    halted := true }

/-- A schedule for `sampleConfig` in which the start procedure of `pdf-svc`
panics: its deferred `wg.Done()` runs, and the main goroutine passes
`wg.Wait()` and returns before the runtime ends the process. -/
def panicSchedule : List Action :=
  [.main, .main, .main, .main, .unit 0 .returns, .unit 0 .panics, .unit 0 .panics,
   .main, .main]

/-- The state `panicSchedule` ends in. -/
def panicFinal : State Entrypoint :=
  { pc := .returned
    wg := 0
    units := [{ ep := .pdfsvc, name := "pdf-svc", phase := .crashing }]
    log := [.noEntrypoint "bogus-svc", .starting "pdf-svc", .allFinished]
    halted := true }

/-- Whether a goroutine in this phase has written its "Service finished"
line. -/
def Phase.wroteFinished : Phase → Bool
  | .deferred => true
  | .done => true
  | _ => false

/-- Whether a goroutine in this phase has yet to call `wg.Done()`. -/
def Phase.pending : Phase → Bool
  | .done => false
  | .crashing => false
  | .exited => false
  | _ => true

/-- How the call `ep()` of a goroutine in this phase has ended, if it has. -/
def Phase.cause : Phase → Option EntrypointOutcome
  | .afterEntrypoint => some .returns
  | .deferred => some .returns
  | .done => some .returns
  | .panicking => some .panics
  | .crashing => some .panics
  | .exiting => some .goexits
  | .exited => some .goexits
  | _ => none

/-- Whether a goroutine has yet to call `wg.Done()`. -/
def Goroutine.pending {E : Type} (g : Goroutine E) : Bool :=
  g.phase.pending

/-- Whether a goroutine is named `n` and has written its "Service finished"
line. -/
def Goroutine.wroteFinishedAs {E : Type} (n : String) (g : Goroutine E) : Bool :=
  decide (g.name = n) && g.phase.wroteFinished

/-- Whether a goroutine is named `n` and its start procedure has returned and
the goroutine has run to its end. -/
def Goroutine.returnedAs {E : Type} (n : String) (g : Goroutine E) : Bool :=
  decide (g.name = n) && decide (g.phase = Phase.done)

/-- What holds of the main goroutine's position in every state of an
execution. -/
def PcInvariant {E : Type} (registry : Registry E) (cfg : Config) (s : State E) : Prop :=
  match s.pc with
  | .start => s.units = [] ∧ Event.allFinished ∉ s.log
  | .loop rest =>
    (∃ processed, split cfg.targetServices = processed ++ rest ∧
      scheduledNames s = scheduledNames (processed.foldl (loopBody registry) (State.init E))) ∧
    Event.allFinished ∉ s.log
  | .joined =>
    (∀ g ∈ s.units, g.phase.pending = false) ∧
    scheduledNames s = expectedScheduled registry cfg.targetServices ∧
    Event.allFinished ∉ s.log
  | .returned =>
    (∀ g ∈ s.units, g.phase.pending = false) ∧
    scheduledNames s = expectedScheduled registry cfg.targetServices ∧
    ∃ pre, s.log = pre ++ [Event.allFinished] ∧ Event.allFinished ∉ pre
  | .exited _ => s.units = [] ∧ Event.allFinished ∉ s.log

/-- What holds in every state of an execution: the counter of the wait group is
the number of goroutines that have not called `Done`, the "Service finished"
lines written for a name are those of the goroutines of that name that are past
their `Printf`, and the position of the main goroutine is consistent. -/
structure Invariant {E : Type} (registry : Registry E) (cfg : Config) (s : State E) :
    Prop where
  wg_eq : s.wg = ((s.units.countP Goroutine.pending : Nat) : Int)
  finished_eq : ∀ n, s.log.count (Event.finished n)
    = s.units.countP (Goroutine.wroteFinishedAs n)
  pc_ok : PcInvariant registry cfg s

/-- What also holds in every state of an execution: every call `ep()` that has
ended has ended in a way its start procedure can end. -/
def CauseInvariant {E : Type} (behaviour : Behaviour E) (s : State E) : Prop :=
  ∀ g ∈ s.units, ∀ o, g.phase.cause = some o → behaviour g.ep o = true

end Launcher

namespace CalculatorSvc

/-! ## Properties of `calculate` -/

/-- C2: for every `A` and `B`, `calculate` returns without error `A+B` for
`"add"`, `A-B` for `"subtract"`, `A*B` for `"multiply"` and, when `B == 0` is
false, `A/B` for `"divide"`; in the exact model `multiply 3 4` gives `12`. -/
theorem calculate_arithmetic {F : Type} [Float64Ops F] (a b : F) :
    calculate { Operation := "add", A := a, B := b } = (a + b, none) ∧
    calculate { Operation := "subtract", A := a, B := b } = (a - b, none) ∧
    calculate { Operation := "multiply", A := a, B := b } = (a * b, none) ∧
    (Float64Ops.eq b 0 = false →
      calculate { Operation := "divide", A := a, B := b } = (a / b, none)) ∧
    calculate ({ Operation := "multiply", A := 3, B := 4 } : CalculationRequest ℚ)
      = (12, none) := by
  refine ⟨by simp [calculate], by simp [calculate], by simp [calculate], ?_, ?_⟩
  · intro h
    simp [calculate, h]
  · simp [calculate]
    norm_num

/-- The division of `10` by `4` in the exact model, as an instance of C2. -/
theorem calculate_arithmetic_witness :
    Float64Ops.eq (4 : ℚ) 0 = false ∧
    calculate ({ Operation := "divide", A := 10, B := 4 } : CalculationRequest ℚ)
      = ((10 : ℚ) / 4, none) :=
  ⟨by decide, (calculate_arithmetic (10 : ℚ) 4).2.2.2.1 (by decide)⟩

/-- The operation tags `calculate` accepts. -/
theorem operation_cases (op : String) :
    op = "add" ∨ op = "subtract" ∨ op = "multiply" ∨ op = "divide" ∨
      op ∉ ["add", "subtract", "multiply", "divide"] := by
  by_cases h1 : op = "add"
  · exact Or.inl h1
  by_cases h2 : op = "subtract"
  · exact Or.inr (Or.inl h2)
  by_cases h3 : op = "multiply"
  · exact Or.inr (Or.inr (Or.inl h3))
  by_cases h4 : op = "divide"
  · exact Or.inr (Or.inr (Or.inr (Or.inl h4)))
  · right; right; right; right
    simp [h1, h2, h3, h4]

/-- C3: `calculate` returns an error exactly when the operation is `"divide"`
with `B == 0`, or the operation is none of the four tags; the message is
"division by zero is not allowed" in the first case and "invalid operation
specified" in the second; tags are compared exactly, so the empty tag and
differently-cased tags are rejected. -/
theorem calculate_error_iff {F : Type} [Float64Ops F] (req : CalculationRequest F) :
    ((calculate req).2 ≠ none ↔
      (req.Operation = "divide" ∧ Float64Ops.eq req.B 0 = true) ∨
        req.Operation ∉ ["add", "subtract", "multiply", "divide"]) ∧
    (req.Operation = "divide" ∧ Float64Ops.eq req.B 0 = true →
      calculate req = (0, some "division by zero is not allowed")) ∧
    (req.Operation ∉ ["add", "subtract", "multiply", "divide"] →
      calculate req = (0, some "invalid operation specified")) ∧
    (∀ op ∈ ["", "Add", "ADD", "Divide", " add"],
      calculate { req with Operation := op } = (0, some "invalid operation specified")) := by
  obtain ⟨op, a, b⟩ := req
  refine ⟨?_, ?_, ?_, ?_⟩
  · rcases operation_cases op with h | h | h | h | h
    · subst h; simp [calculate]
    · subst h; simp [calculate]
    · subst h; simp [calculate]
    · subst h
      by_cases hb : Float64Ops.eq b 0 = true <;> simp [calculate, hb]
    · have h' := h
      simp only [List.mem_cons, List.mem_singleton, List.not_mem_nil, or_false, not_or] at h'
      simp [calculate, h'.1, h'.2.1, h'.2.2.1, h'.2.2.2]
  · rintro ⟨h, hb⟩
    simp only at h hb
    subst h
    simp [calculate, hb]
  · intro h
    simp only [List.mem_cons, List.mem_singleton, List.not_mem_nil, or_false, not_or] at h
    simp [calculate, h.1, h.2.1, h.2.2.1, h.2.2.2]
  · intro op' hop
    simp only [List.mem_cons, List.mem_singleton, List.not_mem_nil, or_false] at hop
    rcases hop with h | h | h | h | h <;> subst h <;> simp [calculate]

/-- The request `{divide, 10, 0}` in the exact model, as an instance of C3. -/
theorem calculate_error_iff_witness :
    (("divide" = "divide" ∧ Float64Ops.eq (0 : ℚ) 0 = true) ∧
      calculate ({ Operation := "divide", A := 10, B := 0 } : CalculationRequest ℚ)
        = (0, some "division by zero is not allowed")) ∧
    ("modulo" ∉ ["add", "subtract", "multiply", "divide"] ∧
      calculate ({ Operation := "modulo", A := 10, B := 0 } : CalculationRequest ℚ)
        = (0, some "invalid operation specified")) :=
  ⟨⟨⟨rfl, by decide⟩,
      (calculate_error_iff
        ({ Operation := "divide", A := 10, B := 0 } : CalculationRequest ℚ)).2.1
        ⟨rfl, by decide⟩⟩,
   ⟨by decide,
      (calculate_error_iff
        ({ Operation := "modulo", A := 10, B := 0 } : CalculationRequest ℚ)).2.2.1
        (by decide)⟩⟩

/-! ## Properties of the SDK -/

/-- The remote and the local variant are different clients: with no base URL
configured they disagree on an `"add"` request. -/
theorem newHttpSdk_ne_localSdk {F : Type} [Float64Ops F] :
    (newHttpSdk : CalculatorSdk F) ≠ localSdk := by
  intro h
  have h1 := congrArg
    (fun sdk : CalculatorSdk F =>
      ((sdk.Calculate { getenv := fun _ => "", post := fun _ => .error "" }
        { Operation := "add", A := 0, B := 0 }).1).2) h
  simp [newHttpSdk, localSdk, calculate] at h1

/-- C6: `NewCalculatorSdk mode` is the remote variant exactly when `mode` is
`"http"`; for every other mode string, the empty one and unrecognised ones
included, it is the local variant, whose `Calculate` gives the result and the
error of `calculate` on every request (and issues no POST). -/
theorem NewCalculatorSdk_mode {F : Type} [Float64Ops F] (mode : String) :
    ((NewCalculatorSdk mode : CalculatorSdk F) = newHttpSdk ↔ mode = "http") ∧
    (mode ≠ "http" →
      (NewCalculatorSdk mode : CalculatorSdk F) = localSdk ∧
      ∀ (w : World F) (req : CalculationRequest F),
        (NewCalculatorSdk mode).Calculate w req = (calculate req, [])) ∧
    (∀ m ∈ ["", "local", "HTTP", "http ", "remote"],
      ∀ (w : World F) (req : CalculationRequest F),
        (NewCalculatorSdk m).Calculate w req = (calculate req, [])) := by
  refine ⟨?_, ?_, ?_⟩
  · by_cases h : mode = "http"
    · simp [NewCalculatorSdk, h]
    · simp only [NewCalculatorSdk, h, if_false, iff_false]
      exact fun e => newHttpSdk_ne_localSdk e.symm
  · intro h
    simp [NewCalculatorSdk, h, localSdk]
  · intro m hm w req
    simp only [List.mem_cons, List.mem_singleton, List.not_mem_nil, or_false] at hm
    rcases hm with h | h | h | h | h <;> subst h <;> simp [NewCalculatorSdk, localSdk]

/-- The mode `"local"` in the exact model, as an instance of C6. -/
theorem NewCalculatorSdk_mode_witness :
    "local" ≠ "http" ∧
    (NewCalculatorSdk "local" : CalculatorSdk ℚ) = localSdk ∧
    ∀ (w : World ℚ) (req : CalculationRequest ℚ),
      (NewCalculatorSdk "local").Calculate w req = (calculate req, []) :=
  ⟨by decide, (NewCalculatorSdk_mode "local").2.1 (by decide)⟩

/-- C7: with the base URL absent from the environment, the remote variant's
`Calculate` returns, for every request, the error "CALCULADOR_SERVICE_URL
environment variable not set" (which names the variable it read), issues no
POST, and its outcome is the same whatever the network would answer; the
variant itself is constructed without consulting the environment. -/
theorem newHttpSdk_missing_base_url {F : Type} [Float64Ops F] (w : World F)
    (req : CalculationRequest F) (h : w.getenv "CALCULADOR_SERVICE_URL" = "") :
    (newHttpSdk.Calculate w req).1
      = (0, some ("CALCULADOR_SERVICE_URL" ++ " environment variable not set")) ∧
    (newHttpSdk.Calculate w req).2 = [] ∧
    (∀ post1 : PostCall F → Except GoError (Response F),
      newHttpSdk.Calculate { w with post := post1 } req = newHttpSdk.Calculate w req) ∧
    (NewCalculatorSdk "http" : CalculatorSdk F) = newHttpSdk := by
  refine ⟨?_, ?_, ?_, ?_⟩
  · simp only [newHttpSdk, h, if_true]
    rfl
  · simp [newHttpSdk, h]
  · intro post1
    simp [newHttpSdk, h]
  · simp [NewCalculatorSdk]

/-- An empty environment and the request `{add, 1, 2}`, as an instance of C7. -/
theorem newHttpSdk_missing_base_url_witness :
    (newHttpSdk.Calculate
        ({ getenv := fun _ => "", post := fun c => .ok (calculateHandler c.body) } : World ℚ)
        { Operation := "add", A := 1, B := 2 }).1
      = (0, some "CALCULADOR_SERVICE_URL environment variable not set") :=
  (newHttpSdk_missing_base_url
    ({ getenv := fun _ => "", post := fun c => .ok (calculateHandler c.body) } : World ℚ)
    { Operation := "add", A := 1, B := 2 } rfl).1

/-- C8 as stated fails for a request that cannot be marshalled: with the base
URL configured and an endpoint that answers every POST with status 500, the
request `{add, NaN, 2}` makes `Calculate` return the error "failed to marshal
request: json: unsupported value: NaN" without issuing a POST, not the error
carrying 500. -/
theorem remote_nan_request_marshal_error :
    newHttpSdk.Calculate
        (fixedResponseWorld "http://localhost:8080"
          ({ StatusCode := 500, Body := .malformed "EOF" } : Response ExtRat))
        { Operation := "add", A := ExtRat.nan, B := ExtRat.fin 2 }
      = ((0, some "failed to marshal request: json: unsupported value: NaN"), []) ∧
    (newHttpSdk.Calculate
        (fixedResponseWorld "http://localhost:8080"
          ({ StatusCode := 500, Body := .malformed "EOF" } : Response ExtRat))
        { Operation := "add", A := ExtRat.nan, B := ExtRat.fin 2 }).1
      ≠ (0, some "calculator service returned non-200 status: 500") := by
  have h : newHttpSdk.Calculate
        (fixedResponseWorld "http://localhost:8080"
          ({ StatusCode := 500, Body := .malformed "EOF" } : Response ExtRat))
        { Operation := "add", A := ExtRat.nan, B := ExtRat.fin 2 }
      = ((0, some "failed to marshal request: json: unsupported value: NaN"), []) := rfl
  refine ⟨h, ?_⟩
  rw [h]
  intro e
  have e2 := congrArg (fun r : Result ExtRat => r.2) e
  simp only [Option.some.injEq] at e2
  exact absurd e2 (by decide)

/-- C8, amended: for every request with finite `A` and `B`, with the base URL
configured, if the POST to `<base>/calculator` carrying the marshalled request
is answered with a status code `s` other than 200, then `Calculate` returns the
error "calculator service returned non-200 status: s", whatever the response
body is, having issued that one POST. -/
theorem newHttpSdk_non200_finite {F : Type} [Float64Ops F] (w : World F)
    (req : CalculationRequest F) (resp : Response F)
    (hurl : w.getenv "CALCULADOR_SERVICE_URL" ≠ "")
    (ha : Float64Ops.isFinite req.A = true) (hb : Float64Ops.isFinite req.B = true)
    (hpost : w.post
        { url := w.getenv "CALCULADOR_SERVICE_URL" ++ "/calculator",
          contentType := "application/json",
          body := .object [("operation", .str req.Operation), ("a", .num req.A),
            ("b", .num req.B)] } = .ok resp)
    (hs : resp.StatusCode ≠ 200) :
    newHttpSdk.Calculate w req
      = ((0, some ("calculator service returned non-200 status: "
            ++ toString resp.StatusCode)),
         [{ url := w.getenv "CALCULADOR_SERVICE_URL" ++ "/calculator",
            contentType := "application/json",
            body := .object [("operation", .str req.Operation), ("a", .num req.A),
              ("b", .num req.B)] }]) := by
  have hm : marshalRequest req = .ok (.object [("operation", .str req.Operation),
      ("a", .num req.A), ("b", .num req.B)]) := by
    simp [marshalRequest, ha, hb]
  simp only [newHttpSdk, hurl, if_false, hm, hpost]
  simp [hs]

/-- A response with status 500 and an unreadable body to the request
`{add, 1, 2}` in the exact model, as an instance of the amended C8. -/
theorem newHttpSdk_non200_finite_witness :
    (newHttpSdk.Calculate
        (fixedResponseWorld "http://localhost:8080"
          ({ StatusCode := 500, Body := .malformed "unexpected EOF" } : Response ℚ))
        { Operation := "add", A := 1, B := 2 }).1
      = (0, some "calculator service returned non-200 status: 500") :=
  congrArg Prod.fst
    (newHttpSdk_non200_finite
      (fixedResponseWorld "http://localhost:8080"
        ({ StatusCode := 500, Body := .malformed "unexpected EOF" } : Response ℚ))
      { Operation := "add", A := 1, B := 2 }
      { StatusCode := 500, Body := .malformed "unexpected EOF" }
      (by decide) rfl rfl rfl (by decide))

/-- What `ShouldBindJSON` reads from the body `json.Marshal` writes: the request
itself. -/
theorem bindRequest_marshalled {F : Type} [Float64Ops F] (op : String) (a b : F) :
    bindRequest (.object [("operation", .str op), ("a", .num a), ("b", .num b)])
      = .ok { Operation := op, A := a, B := b } := by
  rfl

/-- The client reads the field `data`; a body whose only member is `result`
leaves its `Data` at zero, without error. -/
theorem decodeResult_result_field {F : Type} [Float64Ops F] (r : F) :
    decodeResult (.object [("result", .num r)]) = .ok 0 := by
  rfl

/-- Whenever `calculate` succeeds with a finite result on a request with finite
operands, the remote variant answered by `calculateHandler` returns zero and no
error. -/
theorem newHttpSdk_handler_success {F : Type} [Float64Ops F] (w : World F)
    (req : CalculationRequest F) (r : F)
    (hurl : w.getenv "CALCULADOR_SERVICE_URL" ≠ "")
    (hpost : ∀ call, w.post call = .ok (calculateHandler call.body))
    (ha : Float64Ops.isFinite req.A = true) (hb : Float64Ops.isFinite req.B = true)
    (hr : calculate req = (r, none)) (hf : Float64Ops.isFinite r = true) :
    (newHttpSdk.Calculate w req).1 = (0, none) := by
  obtain ⟨op, a, b⟩ := req
  simp only at ha hb
  have hh : calculateHandler
      (.object [("operation", .str op), ("a", .num a), ("b", .num b)] : Body F)
      = { StatusCode := 200, Body := .object [("result", .num r)] } := by
    simp only [calculateHandler, bindRequest_marshalled, hr, hf, if_true]
  simp only [newHttpSdk, hurl, if_false, marshalRequest, ha, hb, hpost]
  simp [hh, decodeResult_result_field]

/-- C1 (the code departs from it): the request `{add, 1, 2}` in the exact
model.  `calculate` gives `3`; `calculateHandler` answers `200` with the body
`{"result": 3}`; the remote variant, answered by the handler, decodes the field
`data` and returns `0` without error. -/
theorem remote_add_returns_zero :
    calculate ({ Operation := "add", A := 1, B := 2 } : CalculationRequest ℚ) = (3, none) ∧
    calculateHandler
        (.object [("operation", .str "add"), ("a", .num 1), ("b", .num 2)] : Body ℚ)
      = { StatusCode := 200, Body := .object [("result", .num 3)] } ∧
    (newHttpSdk.Calculate (handlerWorld "http://localhost:8080")
        ({ Operation := "add", A := 1, B := 2 } : CalculationRequest ℚ)).1 = (0, none) ∧
    (newHttpSdk.Calculate (handlerWorld "http://localhost:8080")
        ({ Operation := "add", A := 1, B := 2 } : CalculationRequest ℚ)).1
      ≠ calculate { Operation := "add", A := 1, B := 2 } := by
  have h1 : calculate ({ Operation := "add", A := 1, B := 2 } : CalculationRequest ℚ)
      = (3, none) := by
    simp [calculate]
    norm_num
  have h3 : (newHttpSdk.Calculate (handlerWorld "http://localhost:8080")
      ({ Operation := "add", A := 1, B := 2 } : CalculationRequest ℚ)).1 = (0, none) := by
    decide
  refine ⟨h1, ?_, h3, ?_⟩
  · simp only [calculateHandler, bindRequest_marshalled, h1]
    rfl
  · rw [h1, h3]
    intro h
    have h0 := congrArg Prod.fst h
    norm_num at h0

/-- C4 as stated fails: for `{divide, 10, 0}` in the exact model the local
variant's error is "division by zero is not allowed", the remote variant's
error, when its POST is answered by `calculateHandler`, is "calculator service
returned non-200 status: 400", and the two differ. -/
theorem remote_divide_by_zero_differs :
    (calculate ({ Operation := "divide", A := 10, B := 0 } : CalculationRequest ℚ)).2
      = some "division by zero is not allowed" ∧
    ((newHttpSdk.Calculate (handlerWorld "http://localhost:8080")
        ({ Operation := "divide", A := 10, B := 0 } : CalculationRequest ℚ)).1).2
      = some "calculator service returned non-200 status: 400" ∧
    ((newHttpSdk.Calculate (handlerWorld "http://localhost:8080")
        ({ Operation := "divide", A := 10, B := 0 } : CalculationRequest ℚ)).1).2
      ≠ (calculate ({ Operation := "divide", A := 10, B := 0 } : CalculationRequest ℚ)).2 := by
  refine ⟨by decide, by decide, by decide⟩

/-- C4, amended: a divide request with finite `A` and a zero `B` fails in both
modes, with different errors.  The local variant returns "division by zero is
not allowed"; `calculateHandler` answers the marshalled request with status 400
and that message in the member `error`; the remote variant, whose POST the
handler answers, returns "calculator service returned non-200 status: 400". -/
theorem divide_by_zero_both_modes {F : Type} [Float64Ops F] (w : World F) (a b : F)
    (hurl : w.getenv "CALCULADOR_SERVICE_URL" ≠ "")
    (hpost : ∀ call, w.post call = .ok (calculateHandler call.body))
    (ha : Float64Ops.isFinite a = true) (hb : Float64Ops.isFinite b = true)
    (hz : Float64Ops.eq b 0 = true) :
    localSdk.Calculate w { Operation := "divide", A := a, B := b }
      = ((0, some "division by zero is not allowed"), []) ∧
    calculateHandler
        (.object [("operation", .str "divide"), ("a", .num a), ("b", .num b)] : Body F)
      = { StatusCode := 400,
          Body := .object [("error", .str "division by zero is not allowed")] } ∧
    (newHttpSdk.Calculate w { Operation := "divide", A := a, B := b }).1
      = (0, some "calculator service returned non-200 status: 400") := by
  have hc : calculate ({ Operation := "divide", A := a, B := b } : CalculationRequest F)
      = (0, some "division by zero is not allowed") := by
    simp [calculate, hz]
  have hh : calculateHandler
      (.object [("operation", .str "divide"), ("a", .num a), ("b", .num b)] : Body F)
      = { StatusCode := 400,
          Body := .object [("error", .str "division by zero is not allowed")] } := by
    simp only [calculateHandler, bindRequest_marshalled, hc]
  refine ⟨by simp [localSdk, hc], hh, ?_⟩
  simp only [newHttpSdk, hurl, if_false, marshalRequest, ha, hb, hpost]
  simp only [hh, Bool.true_eq_false, if_false]
  rw [if_pos (by decide)]
  rfl

/-- The request `{divide, 10, 0}` in the exact model, as an instance of the
amended C4. -/
theorem divide_by_zero_both_modes_witness :
    (newHttpSdk.Calculate (handlerWorld "http://localhost:8080")
        ({ Operation := "divide", A := 10, B := 0 } : CalculationRequest ℚ)).1
      = (0, some "calculator service returned non-200 status: 400") :=
  (divide_by_zero_both_modes (handlerWorld "http://localhost:8080") (10 : ℚ) 0
    (by decide) (fun _ => rfl) rfl rfl (by decide)).2.2

end CalculatorSvc

namespace Launcher

/-! ## The loop of `main` -/

/-- One loop iteration leaves the position of the main goroutine and the
liveness of the process alone. -/
theorem loopBody_pc_halted {E : Type} (registry : Registry E) (s : State E) (x : String) :
    (loopBody registry s x).pc = s.pc ∧ (loopBody registry s x).halted = s.halted := by
  unfold loopBody
  simp only
  split
  · exact ⟨rfl, rfl⟩
  · split <;> exact ⟨rfl, rfl⟩

/-- The effect of one loop iteration on the goroutines, the output and the
counter. -/
theorem loopBody_effect {E : Type} (registry : Registry E) (s : State E) (x : String) :
    (loopBody registry s x).units.map (fun g => g.name)
      = s.units.map (fun g => g.name)
        ++ [trimSpace x].filter (fun n => decide (n ≠ "") && (registry.lookup n).isSome) ∧
    (loopBody registry s x).log
      = s.log ++ ([trimSpace x].filter
          (fun n => decide (n ≠ "") && (registry.lookup n).isNone)).map Event.noEntrypoint ∧
    (loopBody registry s x).wg - (loopBody registry s x).units.length
      = s.wg - s.units.length := by
  unfold loopBody
  simp only
  by_cases h : trimSpace x = ""
  · simp [h]
  · cases hl : registry.lookup (trimSpace x) with
    | none => simp [h, hl]
    | some ep => simp [h, hl]

/-- The effect of the loop, run over a list of entries from any state. -/
theorem foldl_loopBody_effect {E : Type} (registry : Registry E) (entries : List String) :
    ∀ s : State E,
    (entries.foldl (loopBody registry) s).units.map (fun g => g.name)
      = s.units.map (fun g => g.name)
        ++ (entries.map trimSpace).filter
            (fun n => decide (n ≠ "") && (registry.lookup n).isSome) ∧
    (entries.foldl (loopBody registry) s).log
      = s.log ++ ((entries.map trimSpace).filter
          (fun n => decide (n ≠ "") && (registry.lookup n).isNone)).map Event.noEntrypoint ∧
    (entries.foldl (loopBody registry) s).wg - (entries.foldl (loopBody registry) s).units.length
      = s.wg - s.units.length := by
  induction entries with
  | nil => intro s; simp
  | cons x rest ih =>
    intro s
    obtain ⟨h1, h2, h3⟩ := ih (loopBody registry s x)
    obtain ⟨e1, e2, e3⟩ := loopBody_effect registry s x
    simp only [List.foldl_cons, List.map_cons]
    refine ⟨?_, ?_, ?_⟩
    · rw [h1, e1, List.append_assoc, ← List.filter_append]
      rfl
    · rw [h2, e2, List.append_assoc, ← List.map_append, ← List.filter_append]
      rfl
    · rw [h3, e3]

/-- Every goroutine the loop starts from a state without goroutines runs the
registry's start procedure for its name and has not run yet. -/
theorem foldl_loopBody_units {E : Type} (registry : Registry E) (entries : List String) :
    ∀ s : State E,
    (∀ g ∈ s.units, registry.lookup g.name = some g.ep ∧ g.name ≠ "") →
    ∀ g ∈ (entries.foldl (loopBody registry) s).units,
      registry.lookup g.name = some g.ep ∧ g.name ≠ "" := by
  induction entries with
  | nil => intro s hs; simpa using hs
  | cons x rest ih =>
    intro s hs
    simp only [List.foldl_cons]
    apply ih
    intro g hg
    unfold loopBody at hg
    simp only at hg
    by_cases h : trimSpace x = ""
    · simp only [h, if_true] at hg
      exact hs g hg
    · cases hl : registry.lookup (trimSpace x) with
      | none =>
        simp only [h, hl, if_false] at hg
        exact hs g hg
      | some ep =>
        simp only [h, hl, if_false, List.mem_append, List.mem_singleton] at hg
        rcases hg with hg | hg
        · exact hs g hg
        · subst hg
          exact ⟨hl, h⟩

/-- C5: for every configuration string and every registry, the loop of `main`
starts exactly one goroutine per entry whose trimmed name is non-empty and in
the registry, in list order, once per occurrence, named by the trimmed name and
running the registry's start procedure; it writes exactly one "No entrypoint
found" line per entry whose trimmed name is non-empty and not in the registry,
and nothing else; the counter equals the number of goroutines started.  Blank
and unmatched entries do not stop later ones: for
"calculator-svc, , bogus-svc" one goroutine (calculator-svc) is started and one
line (bogus-svc) is written. -/
theorem launchLoop_schedules {E : Type} (registry : Registry E) (targetServices : String) :
    scheduledNames (launchLoop registry targetServices)
      = expectedScheduled registry targetServices ∧
    (launchLoop registry targetServices).log
      = (expectedDiagnosed registry targetServices).map Event.noEntrypoint ∧
    (launchLoop registry targetServices).wg
      = ((launchLoop registry targetServices).units.length : Int) ∧
    (∀ g ∈ (launchLoop registry targetServices).units,
      registry.lookup g.name = some g.ep ∧ g.name ≠ "") ∧
    scheduledNames (launchLoop entrypoints "calculator-svc, , bogus-svc")
      = ["calculator-svc"] ∧
    (launchLoop entrypoints "calculator-svc, , bogus-svc").log
      = [Event.noEntrypoint "bogus-svc"] ∧
    scheduledNames (launchLoop entrypoints "bogus-svc, ,calculator-svc,,pdf-svc ")
      = ["calculator-svc", "pdf-svc"] := by
  obtain ⟨h1, h2, h3⟩ :=
    foldl_loopBody_effect registry (split targetServices) (State.init E)
  refine ⟨?_, ?_, ?_, ?_, by decide, by decide, by decide⟩
  · simpa [scheduledNames, launchLoop, expectedScheduled, State.init] using h1
  · simpa [launchLoop, expectedDiagnosed, State.init] using h2
  · have : (launchLoop registry targetServices).wg
        - ((launchLoop registry targetServices).units.length : Int) = 0 := by
      simpa [launchLoop, State.init] using h3
    omega
  · exact foldl_loopBody_units registry (split targetServices) (State.init E)
      (by simp [State.init])

end Launcher

namespace Launcher

/-! ## Executions under every interleaving -/

/-- Replacing the `i`-th element of a list changes a count by what the old and
the new element contribute. -/
theorem countP_set_of_get {α : Type} (p : α → Bool) :
    ∀ (l : List α) (i : Nat) (g g1 : α), l[i]? = some g →
      (l.set i g1).countP p + (if p g then 1 else 0)
        = l.countP p + (if p g1 then 1 else 0)
  | [], i, g, g1, h => by simp at h
  | a :: l, 0, g, g1, h => by
    simp only [List.getElem?_cons_zero, Option.some.injEq] at h
    subst h
    simp only [List.set_cons_zero, List.countP_cons]
    omega
  | a :: l, i + 1, g, g1, h => by
    have ih := countP_set_of_get p l i g g1 (by simpa using h)
    simp only [List.set_cons_succ, List.countP_cons]
    omega

/-- Changing the phase of a goroutine does not change the names. -/
theorem map_name_set {E : Type} :
    ∀ (l : List (Goroutine E)) (i : Nat) (g : Goroutine E) (ph : Phase),
      l[i]? = some g →
      (l.set i { g with phase := ph }).map (fun g => g.name) = l.map (fun g => g.name)
  | [], i, g, ph, h => by simp at h
  | a :: l, 0, g, ph, h => by
    simp only [List.getElem?_cons_zero, Option.some.injEq] at h
    subst h
    simp
  | a :: l, i + 1, g, ph, h => by
    have ih := map_name_set l i g ph (by simpa using h)
    simp only [List.set_cons_succ, List.map_cons, ih]

/-- The three things a loop iteration can do. -/
theorem loopBody_cases {E : Type} (registry : Registry E) (s : State E) (x : String) :
    loopBody registry s x = s ∨
    loopBody registry s x = { s with log := s.log ++ [Event.noEntrypoint (trimSpace x)] } ∨
    ∃ ep, loopBody registry s x = { s with
      wg := s.wg + 1
      units := s.units ++ [{ ep := ep, name := trimSpace x, phase := Phase.created }] } := by
  unfold loopBody
  simp only
  by_cases h : trimSpace x = ""
  · simp [h]
  · cases hl : registry.lookup (trimSpace x) with
    | none => simp [h]
    | some ep => right; right; exact ⟨ep, by simp [h]⟩

/-- What an action of a goroutine is: only its own phase changes among the
goroutines; the counter drops by one exactly when the goroutine stops being
pending, a "Service finished" line for its name is written exactly when it
passes its `Printf`, the completion line is never written, a goroutine that has
called `Done` writes nothing, and the call `ep()` ends only in a way the start
procedure can end. -/
theorem goroutineStep_spec {E : Type} (behaviour : Behaviour E) (s s1 : State E) (i : Nat)
    (o : EntrypointOutcome) (h : goroutineStep behaviour s i o = some s1) :
    ∃ g ph, s.units[i]? = some g ∧ s1.pc = s.pc ∧
      s1.units = s.units.set i { g with phase := ph } ∧
      (s1.wg + (if g.phase.pending = true then (1 : Int) else 0)
        = s.wg + (if ph.pending = true then (1 : Int) else 0)) ∧
      (∀ n, s1.log.count (Event.finished n)
          + (if (decide (g.name = n) && g.phase.wroteFinished) = true then 1 else 0)
        = s.log.count (Event.finished n)
          + (if (decide (g.name = n) && ph.wroteFinished) = true then 1 else 0)) ∧
      (Event.allFinished ∈ s1.log ↔ Event.allFinished ∈ s.log) ∧
      (g.phase.pending = false → ph.pending = false ∧ s1.log = s.log) ∧
      (∀ o1, ph.cause = some o1 → g.phase.cause = some o1 ∨ behaviour g.ep o1 = true) := by
  unfold goroutineStep at h
  cases hg : s.units[i]? with
  | none => simp [hg] at h
  | some g =>
    obtain ⟨ep, name, phase⟩ := g
    simp only [hg] at h
    unfold goroutineAction at h
    cases phase with
    | created =>
      simp only [Option.some.injEq] at h
      subst h
      refine ⟨_, _, rfl, rfl, rfl, ?_, ?_, ?_, ?_, ?_⟩ <;>
        simp [Phase.pending, Phase.wroteFinished, Phase.cause, List.count_append,
          List.count_singleton]
    | inEntrypoint =>
      by_cases hb : behaviour ep o = true
      · cases o with
        | returns =>
          simp only [hb, if_true, Option.some.injEq] at h
          subst h
          refine ⟨_, _, rfl, rfl, rfl, ?_, ?_, ?_, ?_, ?_⟩ <;>
            simp [Phase.pending, Phase.wroteFinished, Phase.cause, hb]
        | panics =>
          simp only [hb, if_true, Option.some.injEq] at h
          subst h
          refine ⟨_, _, rfl, rfl, rfl, ?_, ?_, ?_, ?_, ?_⟩ <;>
            simp [Phase.pending, Phase.wroteFinished, Phase.cause, hb]
        | goexits =>
          simp only [hb, if_true, Option.some.injEq] at h
          subst h
          refine ⟨_, _, rfl, rfl, rfl, ?_, ?_, ?_, ?_, ?_⟩ <;>
            simp [Phase.pending, Phase.wroteFinished, Phase.cause, hb]
        | terminatesProcess =>
          simp only [hb, if_true, Option.some.injEq] at h
          subst h
          refine ⟨_, _, rfl, rfl, rfl, ?_, ?_, ?_, ?_, ?_⟩ <;>
            simp [Phase.pending, Phase.wroteFinished, Phase.cause]
      · simp [hb] at h
    | afterEntrypoint =>
      simp only [Option.some.injEq] at h
      subst h
      refine ⟨_, _, rfl, rfl, rfl, ?_, ?_, ?_, ?_, ?_⟩
      · simp [Phase.pending]
      · intro n
        by_cases hn : name = n <;>
          simp [Phase.wroteFinished, List.count_append, List.count_singleton, hn]
      · simp
      · simp [Phase.pending]
      · simp [Phase.cause]
    | deferred =>
      simp only [Option.some.injEq] at h
      subst h
      refine ⟨_, _, rfl, rfl, rfl, ?_, ?_, ?_, ?_, ?_⟩ <;>
        simp [Phase.pending, Phase.wroteFinished, Phase.cause, List.count_append,
          List.count_singleton]
    | done => simp at h
    | panicking =>
      simp only [Option.some.injEq] at h
      subst h
      refine ⟨_, _, rfl, rfl, rfl, ?_, ?_, ?_, ?_, ?_⟩ <;>
        simp [Phase.pending, Phase.wroteFinished, Phase.cause, List.count_append,
          List.count_singleton]
    | crashing =>
      simp only [Option.some.injEq] at h
      subst h
      refine ⟨_, _, rfl, rfl, rfl, ?_, ?_, ?_, ?_, ?_⟩ <;>
        simp [Phase.pending, Phase.wroteFinished, Phase.cause, List.count_append,
          List.count_singleton]
    | exiting =>
      simp only [Option.some.injEq] at h
      subst h
      refine ⟨_, _, rfl, rfl, rfl, ?_, ?_, ?_, ?_, ?_⟩ <;>
        simp [Phase.pending, Phase.wroteFinished, Phase.cause, List.count_append,
          List.count_singleton]
    | exited => simp at h

/-- The invariant holds before `main` runs. -/
theorem invariant_init {E : Type} (registry : Registry E) (cfg : Config) :
    Invariant registry cfg (State.init E) := by
  refine ⟨by simp [State.init], by simp [State.init], ?_⟩
  simp [PcInvariant, State.init]

/-- Actions of the main goroutine keep the invariant. -/
theorem invariant_mainStep {E : Type} (registry : Registry E) (cfg : Config)
    (s s1 : State E) (inv : Invariant registry cfg s)
    (h : mainStep registry cfg s = some s1) : Invariant registry cfg s1 := by
  obtain ⟨hwg, hfin, hpc⟩ := inv
  unfold mainStep at h
  unfold PcInvariant at hpc
  cases hp : s.pc with
  | start =>
    simp only [hp] at h hpc
    obtain ⟨hu, hl⟩ := hpc
    by_cases ht : cfg.targetServices = ""
    · simp only [ht, if_true, Option.some.injEq] at h
      subst h
      refine ⟨hwg, ?_, ?_⟩
      · intro n
        have := hfin n
        by_cases hd : cfg.dotenvFailed = true <;>
          simp [hd, List.count_append, List.count_singleton] at this ⊢ <;> exact this
      · by_cases hd : cfg.dotenvFailed = true <;> simp [PcInvariant, hd, hu, hl]
    · simp only [ht, if_false, Option.some.injEq] at h
      subst h
      refine ⟨hwg, ?_, ?_⟩
      · intro n
        have := hfin n
        by_cases hd : cfg.dotenvFailed = true <;>
          simp [hd, List.count_append, List.count_singleton] at this ⊢ <;> exact this
      · by_cases hd : cfg.dotenvFailed = true <;>
          simp [PcInvariant, hd, hl, scheduledNames, hu, State.init]
  | loop entries =>
    simp only [hp] at h hpc
    obtain ⟨⟨processed, hsplit, hnames⟩, hl⟩ := hpc
    cases entries with
    | nil =>
      by_cases hz : s.wg = 0
      · simp only [hz, if_true, Option.some.injEq] at h
        subst h
        refine ⟨by simpa [hz] using hwg, hfin, ?_⟩
        simp only [PcInvariant]
        refine ⟨?_, ?_, hl⟩
        · have h0 : s.units.countP Goroutine.pending = 0 := by
            have := hwg
            rw [hz] at this
            exact_mod_cast this.symm
          intro g hg
          have := (List.countP_eq_zero.mp h0) g hg
          simpa [Goroutine.pending] using this
        · rw [List.append_nil] at hsplit
          show scheduledNames s = _
          rw [hnames, ← hsplit]
          have := (foldl_loopBody_effect registry (split cfg.targetServices) (State.init E)).1
          simpa [scheduledNames, expectedScheduled, State.init] using this
      · simp [hz] at h
    | cons x rest =>
      simp only [Option.some.injEq] at h
      subst h
      have hnames1 : scheduledNames (loopBody registry s x)
          = scheduledNames ((processed ++ [x]).foldl (loopBody registry) (State.init E)) := by
        have e1 := (loopBody_effect registry s x).1
        have e2 := (loopBody_effect registry
          (processed.foldl (loopBody registry) (State.init E)) x).1
        simp only [scheduledNames] at hnames ⊢
        rw [List.foldl_append, List.foldl_cons, List.foldl_nil, e1, e2, hnames]
      have hsplit1 : split cfg.targetServices = (processed ++ [x]) ++ rest := by
        rw [hsplit]; simp
      rcases loopBody_cases registry s x with hc | hc | ⟨ep, hc⟩
      · rw [hc] at hnames1 ⊢
        refine ⟨hwg, hfin, ?_⟩
        simp only [PcInvariant]
        exact ⟨⟨_, hsplit1, hnames1⟩, hl⟩
      · rw [hc] at hnames1 ⊢
        refine ⟨hwg, ?_, ?_⟩
        · intro n
          have := hfin n
          simpa [List.count_append, List.count_singleton] using this
        · simp only [PcInvariant]
          refine ⟨⟨_, hsplit1, hnames1⟩, ?_⟩
          simp [hl]
      · rw [hc] at hnames1 ⊢
        refine ⟨?_, ?_, ?_⟩
        · simp [hwg, List.countP_append, List.countP_cons, Goroutine.pending, Phase.pending]
        · intro n
          have := hfin n
          simpa [List.countP_append, List.countP_cons, Goroutine.wroteFinishedAs,
            Phase.wroteFinished] using this
        · simp only [PcInvariant]
          exact ⟨⟨_, hsplit1, hnames1⟩, hl⟩
  | joined =>
    simp only [hp, Option.some.injEq] at h hpc
    subst h
    obtain ⟨hd, hn, hl⟩ := hpc
    refine ⟨hwg, ?_, ?_⟩
    · intro n
      have := hfin n
      simpa [List.count_append, List.count_singleton] using this
    · simp only [PcInvariant]
      exact ⟨hd, hn, s.log, rfl, hl⟩
  | returned => simp [hp] at h
  | exited code => simp [hp] at h

/-- Actions of the goroutines keep the invariant. -/
theorem invariant_goroutineStep {E : Type} (registry : Registry E) (behaviour : Behaviour E)
    (cfg : Config) (s s1 : State E) (i : Nat) (o : EntrypointOutcome)
    (inv : Invariant registry cfg s) (h : goroutineStep behaviour s i o = some s1) :
    Invariant registry cfg s1 := by
  obtain ⟨hwg, hfin, hpc⟩ := inv
  obtain ⟨g, ph, hg, hpc1, hu1, hw, hf, hall, hnp, _⟩ := goroutineStep_spec behaviour s s1 i o h
  have hmem : g ∈ s.units := List.getElem?_mem hg
  have hnames : scheduledNames s1 = scheduledNames s := by
    simp only [scheduledNames, hu1]
    exact map_name_set s.units i g ph hg
  have hcw := countP_set_of_get (Goroutine.pending) s.units i g { g with phase := ph } hg
  have hcf := fun n : String => countP_set_of_get (Goroutine.wroteFinishedAs n)
    s.units i g { g with phase := ph } hg
  have hkeep : (∀ g1 ∈ s.units, g1.phase.pending = false) →
      ∀ g1 ∈ s1.units, g1.phase.pending = false := by
    intro hd g1 hg1
    rw [hu1] at hg1
    rcases List.mem_or_eq_of_mem_set hg1 with hin | heq
    · exact hd g1 hin
    · subst heq
      exact (hnp (hd g hmem)).1
  refine ⟨?_, ?_, ?_⟩
  · rw [hu1]
    simp only [Goroutine.pending] at hcw
    cases hp1 : g.phase.pending <;> cases hp2 : ph.pending <;>
      simp only [hp1, hp2, if_true, Bool.false_eq_true, if_false] at hcw hw <;> omega
  · intro n
    have hc := hcf n
    have hf1 := hf n
    have hf0 := hfin n
    rw [hu1]
    simp only [Goroutine.wroteFinishedAs] at hc hf0 ⊢
    cases hb1 : (decide (g.name = n) && g.phase.wroteFinished) <;>
      cases hb2 : (decide (g.name = n) && ph.wroteFinished) <;>
      simp only [hb1, hb2, if_true, Bool.false_eq_true, if_false] at hc hf1 <;> omega
  · unfold PcInvariant at hpc ⊢
    rw [hpc1]
    cases hp : s.pc with
    | start =>
      simp only [hp] at hpc
      rw [hpc.1] at hmem
      simp at hmem
    | loop rest =>
      simp only [hp] at hpc ⊢
      obtain ⟨⟨processed, hsplit, hn⟩, hl⟩ := hpc
      exact ⟨⟨processed, hsplit, hnames.trans hn⟩, fun hm => hl (hall.mp hm)⟩
    | joined =>
      simp only [hp] at hpc ⊢
      exact ⟨hkeep hpc.1, hnames.trans hpc.2.1, fun hm => hpc.2.2 (hall.mp hm)⟩
    | returned =>
      simp only [hp] at hpc ⊢
      obtain ⟨hd, hn, pre, hlog, hpre⟩ := hpc
      exact ⟨hkeep hd, hnames.trans hn, pre, by rw [(hnp (hd g hmem)).2, hlog], hpre⟩
    | exited code =>
      simp only [hp] at hpc
      rw [hpc.1] at hmem
      simp at hmem

/-- Every state of every execution satisfies the invariant. -/
theorem invariant_of_reachable {E : Type} (registry : Registry E) (behaviour : Behaviour E)
    (cfg : Config) (s : State E) (h : Reachable registry behaviour cfg s) :
    Invariant registry cfg s := by
  induction h with
  | init => exact invariant_init registry cfg
  | step _ hstep ih =>
    rcases hstep.2 with hm | ⟨i, o, hg⟩
    · exact invariant_mainStep registry cfg _ _ ih hm
    · exact invariant_goroutineStep registry behaviour cfg _ _ i o ih hg

/-- Actions of the main goroutine only add goroutines that have not called
their start procedure. -/
theorem mainStep_units {E : Type} (registry : Registry E) (cfg : Config) (s s1 : State E)
    (h : mainStep registry cfg s = some s1) :
    s1.units = s.units ∨
      ∃ ep name, s1.units = s.units ++ [{ ep := ep, name := name, phase := Phase.created }] := by
  unfold mainStep at h
  cases hp : s.pc with
  | start =>
    simp only [hp] at h
    by_cases ht : cfg.targetServices = "" <;>
      simp only [ht, if_true, if_false, Option.some.injEq] at h <;> subst h <;> exact Or.inl rfl
  | loop entries =>
    simp only [hp] at h
    cases entries with
    | nil =>
      by_cases hz : s.wg = 0
      · simp only [hz, if_true, Option.some.injEq] at h
        subst h
        exact Or.inl rfl
      · simp [hz] at h
    | cons x rest =>
      simp only [Option.some.injEq] at h
      subst h
      rcases loopBody_cases registry s x with hc | hc | ⟨ep, hc⟩
      · left; simp only [hc]
      · left; simp only [hc]
      · right; exact ⟨ep, trimSpace x, by simp only [hc]⟩
  | joined =>
    simp only [hp, Option.some.injEq] at h
    subst h
    exact Or.inl rfl
  | returned => simp [hp] at h
  | exited code => simp [hp] at h

/-- In every state of every execution, every call `ep()` that has ended has
ended in a way its start procedure can end. -/
theorem causeInvariant_of_reachable {E : Type} (registry : Registry E)
    (behaviour : Behaviour E) (cfg : Config) (s : State E)
    (h : Reachable registry behaviour cfg s) : CauseInvariant behaviour s := by
  induction h with
  | init =>
    intro g hg
    simp [State.init] at hg
  | step _ hstep ih =>
    rcases hstep.2 with hm | ⟨i, o, hg⟩
    · rcases mainStep_units registry cfg _ _ hm with hu | ⟨ep, name, hu⟩
      · intro g hg
        rw [hu] at hg
        exact ih g hg
      · intro g hg o1 hc
        rw [hu, List.mem_append, List.mem_singleton] at hg
        rcases hg with hg | hg
        · exact ih g hg o1 hc
        · subst hg
          simp [Phase.cause] at hc
    · obtain ⟨g, ph, hget, _, hu1, _, _, _, _, hcause⟩ := goroutineStep_spec behaviour _ _ i o hg
      intro g1 hg1 o1 hc
      rw [hu1] at hg1
      rcases List.mem_or_eq_of_mem_set hg1 with hin | heq
      · exact ih g1 hin o1 hc
      · subst heq
        rcases hcause o1 hc with h1 | h1
        · exact ih g (List.getElem?_mem hget) o1 h1
        · exact h1

/-- A run under an explicit schedule is an execution. -/
theorem reachable_of_runSchedule {E : Type} (registry : Registry E) (behaviour : Behaviour E)
    (cfg : Config) :
    ∀ (schedule : List Action) (s s1 : State E), Reachable registry behaviour cfg s →
      runSchedule registry behaviour cfg schedule s = some s1 →
      Reachable registry behaviour cfg s1
  | [], s, s1, hs, h => by
    simp only [runSchedule, Option.some.injEq] at h
    exact h ▸ hs
  | a :: rest, s, s1, hs, h => by
    unfold runSchedule at h
    by_cases hh : s.halted = true
    · simp [hh] at h
    · have hh1 : s.halted = false := by simpa using hh
      simp only [hh1, Bool.false_eq_true, if_false] at h
      cases a with
      | main =>
        simp only at h
        cases hm : mainStep registry cfg s with
        | none => simp [hm] at h
        | some s2 =>
          simp only [hm] at h
          exact reachable_of_runSchedule registry behaviour cfg rest s2 s1
            (Reachable.step hs ⟨hh1, Or.inl hm⟩) h
      | unit i o =>
        simp only at h
        cases hm : goroutineStep behaviour s i o with
        | none => simp [hm] at h
        | some s2 =>
          simp only [hm] at h
          exact reachable_of_runSchedule registry behaviour cfg rest s2 s1
            (Reachable.step hs ⟨hh1, Or.inr ⟨i, o, hm⟩⟩) h

/-- Among goroutines that have all called `Done`, those that wrote "Service
finished" for a name are those of that name whose start procedure returned. -/
theorem countP_wroteFinishedAs_of_not_pending {E : Type} (n : String) :
    ∀ l : List (Goroutine E), (∀ g ∈ l, g.phase.pending = false) →
      l.countP (Goroutine.wroteFinishedAs n) = l.countP (Goroutine.returnedAs n)
  | [], _ => by simp
  | g :: l, h => by
    have ih := countP_wroteFinishedAs_of_not_pending n l
      (fun g hg => h g (List.mem_cons_of_mem _ hg))
    have hg : g.phase.pending = false := h g (List.mem_cons_self _ _)
    have e : Goroutine.wroteFinishedAs n g = Goroutine.returnedAs n g := by
      cases hph : g.phase <;>
        simp [Goroutine.wroteFinishedAs, Goroutine.returnedAs, Phase.wroteFinished, hph,
          Phase.pending] at hg ⊢
    simp only [List.countP_cons, ih, e]

/-- Among goroutines that are all done, those of a name whose start procedure
returned are all those of that name. -/
theorem countP_returnedAs_of_done {E : Type} (n : String) :
    ∀ l : List (Goroutine E), (∀ g ∈ l, g.phase = Phase.done) →
      l.countP (Goroutine.returnedAs n) = (l.map (fun g => g.name)).count n
  | [], _ => by simp
  | g :: l, h => by
    have ih := countP_returnedAs_of_done n l (fun g hg => h g (List.mem_cons_of_mem _ hg))
    have hg : g.phase = Phase.done := h g (List.mem_cons_self _ _)
    simp only [List.countP_cons, List.map_cons, List.count_cons, ih, Goroutine.returnedAs,
      hg, decide_True, Bool.and_true, decide_eq_true_eq, beq_iff_eq]

/-- A goroutine that has called `Done` has returned, is in a panic, or was ended
by `runtime.Goexit`. -/
theorem phase_of_not_pending (ph : Phase) (h : ph.pending = false) :
    ph = Phase.done ∨ ph = Phase.crashing ∨ ph = Phase.exited := by
  cases ph <;> simp [Phase.pending] at h ⊢

/-- C10 as stated fails: with `TARGET_SERVICES = "pdf-svc, , bogus-svc"` there
is an execution in which the start procedure of `pdf-svc` panics, its deferred
`wg.Done()` releases `wg.Wait()`, and `main` writes "All services have
finished." and returns although that start procedure never returned and no
"Service finished: pdf-svc" line was written. -/
theorem launcher_returns_after_panic :
    Reachable entrypoints entrypointBehaviour sampleConfig panicFinal ∧
    panicFinal.pc = MainPc.returned ∧
    Event.allFinished ∈ panicFinal.log ∧
    scheduledNames panicFinal = ["pdf-svc"] ∧
    Event.finished "pdf-svc" ∉ panicFinal.log ∧
    ¬ ∀ g ∈ panicFinal.units, g.phase = Phase.done := by
  refine ⟨reachable_of_runSchedule entrypoints entrypointBehaviour sampleConfig panicSchedule
    (State.init Entrypoint) panicFinal Reachable.init rfl, rfl, by decide, rfl, by decide, ?_⟩
  intro h
  have := h { ep := Entrypoint.pdfsvc, name := "pdf-svc", phase := Phase.crashing }
    (List.mem_singleton.mpr rfl)
  cases this

/-- C10, amended: in every state of every execution (every interleaving of the
main goroutine and the goroutines it started), if `main` has returned then
every goroutine it started has called its deferred `wg.Done()` (its start
procedure has returned, has panicked, or has ended the goroutine with
`runtime.Goexit`) and these are the goroutines the loop schedules; if "All
services have finished." has been written, `main` has returned, that line is
the last one, and before it there is, for every name, one "Service finished"
line for each goroutine of that name whose start procedure returned.  When no
start procedure panics or calls `runtime.Goexit`, every goroutine started has
then run to its end, and there is one "Service finished" line before the
completion line for each goroutine started. -/
theorem launcher_joins_all {E : Type} (registry : Registry E) (behaviour : Behaviour E)
    (cfg : Config) (s : State E) (h : Reachable registry behaviour cfg s) :
    (s.pc = MainPc.returned →
      (∀ g ∈ s.units,
        g.phase = Phase.done ∨ g.phase = Phase.crashing ∨ g.phase = Phase.exited) ∧
      scheduledNames s = expectedScheduled registry cfg.targetServices) ∧
    (Event.allFinished ∈ s.log →
      s.pc = MainPc.returned ∧
      ∃ pre, s.log = pre ++ [Event.allFinished] ∧
        ∀ n, pre.count (Event.finished n) = s.units.countP (Goroutine.returnedAs n)) ∧
    ((∀ e, behaviour e EntrypointOutcome.panics = false ∧
          behaviour e EntrypointOutcome.goexits = false) →
      (s.pc = MainPc.returned → ∀ g ∈ s.units, g.phase = Phase.done) ∧
      (Event.allFinished ∈ s.log →
        ∃ pre, s.log = pre ++ [Event.allFinished] ∧
          ∀ n, pre.count (Event.finished n) = (scheduledNames s).count n)) := by
  obtain ⟨_, hfin, hpc⟩ := invariant_of_reachable registry behaviour cfg s h
  have hcause := causeInvariant_of_reachable registry behaviour cfg s h
  unfold PcInvariant at hpc
  cases hp : s.pc with
  | start =>
    simp only [hp] at hpc
    exact ⟨fun e => (by cases e), fun hm => absurd hm hpc.2,
      fun _ => ⟨fun e => (by cases e), fun hm => absurd hm hpc.2⟩⟩
  | loop rest =>
    simp only [hp] at hpc
    exact ⟨fun e => (by cases e), fun hm => absurd hm hpc.2,
      fun _ => ⟨fun e => (by cases e), fun hm => absurd hm hpc.2⟩⟩
  | joined =>
    simp only [hp] at hpc
    exact ⟨fun e => (by cases e), fun hm => absurd hm hpc.2.2,
      fun _ => ⟨fun e => (by cases e), fun hm => absurd hm hpc.2.2⟩⟩
  | exited code =>
    simp only [hp] at hpc
    exact ⟨fun e => (by cases e), fun hm => absurd hm hpc.2,
      fun _ => ⟨fun e => (by cases e), fun hm => absurd hm hpc.2⟩⟩
  | returned =>
    simp only [hp] at hpc
    obtain ⟨hd, hn, pre, hlog, _⟩ := hpc
    have hcount : ∀ n, pre.count (Event.finished n)
        = s.units.countP (Goroutine.returnedAs n) := by
      intro n
      have hf := hfin n
      rw [hlog, List.count_append, countP_wroteFinishedAs_of_not_pending n s.units hd] at hf
      simpa [List.count_singleton] using hf
    refine ⟨fun _ => ⟨fun g hg => phase_of_not_pending g.phase (hd g hg), hn⟩,
      fun _ => ⟨rfl, pre, hlog, hcount⟩, ?_⟩
    intro hb
    have hdone : ∀ g ∈ s.units, g.phase = Phase.done := by
      intro g hg
      rcases phase_of_not_pending g.phase (hd g hg) with h1 | h1 | h1
      · exact h1
      · have := hcause g hg EntrypointOutcome.panics (by rw [h1]; rfl)
        rw [(hb g.ep).1] at this
        cases this
      · have := hcause g hg EntrypointOutcome.goexits (by rw [h1]; rfl)
        rw [(hb g.ep).2] at this
        cases this
    refine ⟨fun _ => hdone, fun _ => ⟨pre, hlog, ?_⟩⟩
    intro n
    rw [hcount n, countP_returnedAs_of_done n s.units hdone]
    rfl

/-- The execution `sampleSchedule` of `sampleConfig`, in which the start
procedure of `pdf-svc` returns, as an instance of the amended C10. -/
theorem launcher_joins_all_witness :
    Reachable entrypoints entrypointBehaviour sampleConfig sampleFinal ∧
    (∀ g ∈ sampleFinal.units,
      g.phase = Phase.done ∨ g.phase = Phase.crashing ∨ g.phase = Phase.exited) ∧
    scheduledNames sampleFinal = expectedScheduled entrypoints sampleConfig.targetServices :=
  ⟨reachable_of_runSchedule entrypoints entrypointBehaviour sampleConfig sampleSchedule
      (State.init Entrypoint) sampleFinal Reachable.init rfl,
   (launcher_joins_all entrypoints entrypointBehaviour sampleConfig sampleFinal
      (reachable_of_runSchedule entrypoints entrypointBehaviour sampleConfig sampleSchedule
        (State.init Entrypoint) sampleFinal Reachable.init rfl)).1 rfl⟩

/-! ## The main goroutine alone -/

/-- A loop iteration does not look at the position of the main goroutine. -/
theorem loopBody_with_pc {E : Type} (registry : Registry E) (s : State E) (pc : MainPc)
    (x : String) :
    loopBody registry { s with pc := pc } x = { loopBody registry s x with pc := pc } := by
  unfold loopBody
  simp only
  split
  · rfl
  · split <;> rfl

/-- The loop does not look at the position of the main goroutine. -/
theorem foldl_loopBody_with_pc {E : Type} (registry : Registry E) (pc : MainPc) :
    ∀ (entries : List String) (s : State E),
      entries.foldl (loopBody registry) { s with pc := pc }
        = { entries.foldl (loopBody registry) s with pc := pc }
  | [], _ => rfl
  | x :: rest, s => by
    simp only [List.foldl_cons]
    rw [loopBody_with_pc, foldl_loopBody_with_pc registry pc rest]

/-- The loop leaves the liveness of the process alone. -/
theorem foldl_loopBody_halted {E : Type} (registry : Registry E) :
    ∀ (entries : List String) (s : State E),
      (entries.foldl (loopBody registry) s).halted = s.halted
  | [], _ => rfl
  | x :: rest, s => by
    simp only [List.foldl_cons]
    rw [foldl_loopBody_halted registry rest, (loopBody_pc_halted registry s x).2]

/-- One action of the main goroutine run alone. -/
theorem runMain_step {E : Type} (registry : Registry E) (cfg : Config) (n : Nat)
    (s s1 : State E) (hh : s.halted = false) (hm : mainStep registry cfg s = some s1) :
    runMain registry cfg (n + 1) s = runMain registry cfg n s1 := by
  rw [runMain]
  simp [hh, hm]

/-- The main goroutine, alone, runs its loop over the remaining entries in as
many actions as there are entries. -/
theorem runMain_loop {E : Type} (registry : Registry E) (cfg : Config) :
    ∀ (entries : List String) (s : State E) (k : Nat), s.halted = false →
      s.pc = MainPc.loop entries →
      runMain registry cfg (entries.length + k) s
        = runMain registry cfg k
            { entries.foldl (loopBody registry) s with pc := MainPc.loop [] }
  | [], s, k, _, hpc => by
    obtain ⟨pc, wg, units, log, halted⟩ := s
    simp only at hpc
    subst hpc
    simp
  | x :: rest, s, k, hh, hpc => by
    have e : (x :: rest).length + k = (rest.length + k) + 1 := by
      simp only [List.length_cons]; omega
    have hms : mainStep registry cfg s
        = some { loopBody registry s x with pc := MainPc.loop rest } := by
      simp [mainStep, hpc]
    rw [e, runMain_step registry cfg _ s _ hh hms,
      runMain_loop registry cfg rest _ k
        (by simp [(loopBody_pc_halted registry s x).2, hh]) rfl,
      List.foldl_cons, foldl_loopBody_with_pc]

/-- An action of the main goroutine taken after `n` of its actions is its
`n+1`-st action. -/
theorem runMain_succ {E : Type} (registry : Registry E) (cfg : Config) :
    ∀ (n : Nat) (s0 s1 : State E), (runMain registry cfg n s0).halted = false →
      mainStep registry cfg (runMain registry cfg n s0) = some s1 →
      runMain registry cfg (n + 1) s0 = s1
  | 0, s0, s1, hh, hm => by
    simp only [runMain] at hh hm ⊢
    simp [hh, hm]
  | n + 1, s0, s1, hh, hm => by
    rw [runMain] at hh hm
    rw [runMain]
    by_cases h0 : s0.halted = true
    · simp [h0] at hh
    · have h0' : s0.halted = false := by simpa using h0
      simp only [h0', Bool.false_eq_true, if_false] at hh hm ⊢
      cases hs : mainStep registry cfg s0 with
      | none =>
        simp only [hs] at hm
        cases hm
      | some s2 =>
        simp only [hs] at hh hm ⊢
        exact runMain_succ registry cfg n s2 s1 hh hm

/-- When the loop schedules nothing, no execution ever has a goroutine. -/
theorem units_nil_of_nothing_scheduled {E : Type} (registry : Registry E)
    (behaviour : Behaviour E) (cfg : Config)
    (hnone : expectedScheduled registry cfg.targetServices = []) (s : State E)
    (h : Reachable registry behaviour cfg s) : s.units = [] := by
  obtain ⟨_, _, hpc⟩ := invariant_of_reachable registry behaviour cfg s h
  have hnil : scheduledNames s = [] → s.units = [] := by
    intro hn
    simpa [scheduledNames] using hn
  unfold PcInvariant at hpc
  cases hp : s.pc with
  | start => simp only [hp] at hpc; exact hpc.1
  | exited code => simp only [hp] at hpc; exact hpc.1
  | joined => simp only [hp] at hpc; exact hnil (hpc.2.1.trans hnone)
  | returned => simp only [hp] at hpc; exact hnil (hpc.2.1.trans hnone)
  | loop rest =>
    simp only [hp] at hpc
    obtain ⟨⟨processed, hsplit, hn⟩, _⟩ := hpc
    apply hnil
    rw [hn]
    have e := (foldl_loopBody_effect registry processed (State.init E)).1
    simp only [expectedScheduled, hsplit, List.map_append, List.filter_append,
      List.append_eq_nil] at hnone
    rw [hnone.1] at e
    simpa [scheduledNames, State.init] using e

/-- The state in which the prologue of `main` ends the process. -/
theorem mainStep_empty_target {E : Type} (registry : Registry E) (cfg : Config)
    (ht : cfg.targetServices = "") :
    mainStep registry cfg (State.init E)
      = some { pc := MainPc.exited 1, wg := 0, units := [],
               log := (if cfg.dotenvFailed then [Event.dotenvWarning] else [])
                 ++ [Event.targetServicesNotSet],
               halted := true } := by
  by_cases hd : cfg.dotenvFailed = true <;> simp [mainStep, State.init, ht, hd]

/-- With an empty `TARGET_SERVICES`, an execution is in its initial state or has
exited with status 1, without the completion line. -/
theorem reachable_empty_target {E : Type} (registry : Registry E) (behaviour : Behaviour E)
    (cfg : Config) (ht : cfg.targetServices = "") (s : State E)
    (h : Reachable registry behaviour cfg s) :
    s = State.init E ∨
      (s.pc = MainPc.exited 1 ∧ s.halted = true ∧ s.units = [] ∧
        Event.allFinished ∉ s.log) := by
  induction h with
  | init => exact Or.inl rfl
  | step _ hstep ih =>
    rcases ih with ih | ih
    · subst ih
      rcases hstep.2 with hm | ⟨i, o, hg⟩
      · rw [mainStep_empty_target registry cfg ht] at hm
        cases hm
        right
        by_cases hd : cfg.dotenvFailed = true <;> simp [hd]
      · simp [goroutineStep, State.init] at hg
    · have := hstep.1
      rw [ih.2.1] at this
      cases this

/-- C9 as stated fails: with an empty `TARGET_SERVICES` no entry is scheduled,
yet the launcher writes "TARGET_SERVICES environment variable not set" and
exits with status 1; no execution returns from `main` or writes the completion
line. -/
theorem launcher_empty_target_exits :
    expectedScheduled entrypoints "" = [] ∧
    runMain entrypoints { targetServices := "", dotenvFailed := false } 3
        (State.init Entrypoint)
      = { pc := MainPc.exited 1, wg := 0, units := [],
          log := [Event.targetServicesNotSet], halted := true } ∧
    ¬ ∃ s : State Entrypoint,
        Reachable entrypoints entrypointBehaviour
          { targetServices := "", dotenvFailed := false } s ∧
        (s.pc = MainPc.returned ∨ Event.allFinished ∈ s.log) := by
  refine ⟨by decide, rfl, ?_⟩
  rintro ⟨s, hs, hbad⟩
  rcases reachable_empty_target entrypoints entrypointBehaviour _ rfl s hs with h | h
  · subst h
    rcases hbad with hb | hb
    · cases hb
    · simp [State.init] at hb
  · rcases hbad with hb | hb
    · rw [h.1] at hb
      cases hb
    · exact h.2.2.2 hb

/-- C9, amended: with an empty `TARGET_SERVICES` the main goroutine writes
"TARGET_SERVICES environment variable not set" and exits with status 1.  With
a non-empty one of which no entry is scheduled, the main goroutine returns
after as many actions as there are entries plus three, having started no
goroutine, and the completion line is the last line written, after one
diagnostic per unmatched entry; and in every execution no goroutine is ever
started and every state is a state of that run. -/
theorem launcher_nothing_scheduled {E : Type} (registry : Registry E)
    (behaviour : Behaviour E) (cfg : Config) :
    (cfg.targetServices = "" →
      runMain registry cfg 1 (State.init E)
        = { pc := MainPc.exited 1, wg := 0, units := [],
            log := (if cfg.dotenvFailed then [Event.dotenvWarning] else [])
              ++ [Event.targetServicesNotSet],
            halted := true }) ∧
    (cfg.targetServices ≠ "" → expectedScheduled registry cfg.targetServices = [] →
      runMain registry cfg ((split cfg.targetServices).length + 3) (State.init E)
        = { pc := MainPc.returned, wg := 0, units := [],
            log := (if cfg.dotenvFailed then [Event.dotenvWarning] else [])
              ++ (expectedDiagnosed registry cfg.targetServices).map Event.noEntrypoint
              ++ [Event.allFinished],
            halted := true } ∧
      ∀ s, Reachable registry behaviour cfg s →
        s.units = [] ∧ ∃ n, s = runMain registry cfg n (State.init E)) := by
  constructor
  · intro ht
    rw [runMain_step registry cfg 0 _ _ rfl (mainStep_empty_target registry cfg ht)]
    rfl
  · intro hne hnone
    constructor
    · have hm : mainStep registry cfg (State.init E)
          = some { pc := MainPc.loop (split cfg.targetServices), wg := 0, units := [],
                   log := (if cfg.dotenvFailed then [Event.dotenvWarning] else []),
                   halted := false } := by
        by_cases hd : cfg.dotenvFailed = true <;> simp [mainStep, State.init, hne, hd]
      rw [show (split cfg.targetServices).length + 3
          = ((split cfg.targetServices).length + 2) + 1 from rfl,
        runMain_step registry cfg _ _ _ rfl hm,
        runMain_loop registry cfg (split cfg.targetServices) _ 2 rfl rfl]
      obtain ⟨e1, e2, e3⟩ := foldl_loopBody_effect registry (split cfg.targetServices)
        ({ pc := MainPc.loop (split cfg.targetServices), wg := 0, units := [],
           log := (if cfg.dotenvFailed then [Event.dotenvWarning] else []),
           halted := false } : State E)
      have e4 := foldl_loopBody_halted registry (split cfg.targetServices)
        ({ pc := MainPc.loop (split cfg.targetServices), wg := 0, units := [],
           log := (if cfg.dotenvFailed then [Event.dotenvWarning] else []),
           halted := false } : State E)
      generalize List.foldl (loopBody registry)
        ({ pc := MainPc.loop (split cfg.targetServices), wg := 0, units := [],
           log := (if cfg.dotenvFailed then [Event.dotenvWarning] else []),
           halted := false } : State E) (split cfg.targetServices) = t at e1 e2 e3 e4 ⊢
      obtain ⟨pc, wg, units, log, halted⟩ := t
      simp only [expectedScheduled] at hnone
      simp only [hnone, List.map_nil, List.append_nil, List.map_eq_nil_iff] at e1
      subst e1
      simp only [List.length_nil, Int.ofNat_zero, Nat.cast_zero, sub_zero] at e3
      simp only at e2 e4
      subst e2 e3 e4
      simp [runMain, mainStep, expectedDiagnosed]
    · intro s hs
      refine ⟨units_nil_of_nothing_scheduled registry behaviour cfg hnone s hs, ?_⟩
      induction hs with
      | init => exact ⟨0, rfl⟩
      | step hprev hstep ih =>
        obtain ⟨n, hn⟩ := ih
        rcases hstep.2 with hm | ⟨i, o, hg⟩
        · refine ⟨n + 1, ?_⟩
          subst hn
          exact (runMain_succ registry cfg n _ _ hstep.1 hm).symm
        · obtain ⟨g, _, hget, _⟩ := goroutineStep_spec behaviour _ _ i o hg
          rw [units_nil_of_nothing_scheduled registry behaviour cfg hnone _ hprev] at hget
          simp at hget

/-- The configuration " , bogus-svc" with the registry of `main`, as an
instance of the amended C9. -/
theorem launcher_nothing_scheduled_witness :
    runMain entrypoints { targetServices := " , bogus-svc", dotenvFailed := false } 5
        (State.init Entrypoint)
      = { pc := MainPc.returned, wg := 0, units := [],
          log := [Event.noEntrypoint "bogus-svc", Event.allFinished], halted := true } :=
  ((launcher_nothing_scheduled entrypoints entrypointBehaviour
      { targetServices := " , bogus-svc", dotenvFailed := false }).2
    (by decide) (by decide)).1

end Launcher
